import Mathlib

/-!
Shallow embedding of the `litecharts` chart builder (Python) in Lean 4,
together with proofs about its pane-layout, option-translation,
time-coercion, code-generation and mutation behaviour.

Conventions used throughout:
* Python `dict`s that hold chart/series/marker options are modelled as
  insertion-ordered association lists `List (String × OptVal)`.
* Python `int` is modelled as `ℤ`, Python `float` as `ℚ` (the claims under
  study only concern values and operations that are exact in this range:
  truncation `int(x)`, multiplication and division by ratios).
* Fallible Python code (functions that raise) returns `Except String _`.
* Reference semantics of Python objects, where a claim is about mutation
  or aliasing, is modelled separately by an explicit heap
  (see the `Heap` section below); the pure value model is used for the
  claims about emitted content.
-/

namespace Litecharts

/-- Model of a Python/JSON value as it appears in option, marker, data-point
and price-line mappings: ints, floats, booleans, strings, lists and nested
dicts (insertion-ordered association lists). -/
inductive OptVal where
  | int (n : ℤ)
  | float (q : ℚ)
  | bool (b : Bool)
  | str (s : String)
  | list (xs : List OptVal)
  | dict (kvs : List (String × OptVal))

/-- A Python dict with string keys, in insertion order. -/
abbrev OptDict := List (String × OptVal)

/-- Python `d.get(k)`: the value of the first entry with key `k`, if any.
Polymorphic so that the same dict model serves options values and heap
values below. -/
def dictGet {α : Type} : List (String × α) → String → Option α
  | [], _ => none
  | (k', v) :: rest, k => if k' = k then some v else dictGet rest k

/-- Python `d[k] = v` on an insertion-ordered dict: an existing key keeps its
position and gets the new value, a new key is appended at the end.
Polymorphic so that it also serves the tooltip table of the plugin. -/
def pyDictSet {α : Type} : List (String × α) → String → α → List (String × α)
  | [], k, v => [(k, v)]
  | (k', v') :: rest, k, v =>
      if k' = k then (k, v) :: rest else (k', v') :: pyDictSet rest k v

/-- Executable floor of a rational: `q.num / q.den` with Lean's `Int`
division, which rounds toward negative infinity w.r.t. a positive
denominator, hence equals `⌊q⌋`. -/
def ratFloor (q : ℚ) : ℤ := q.num / (q.den : ℤ)

/-- Executable ceiling of a rational. -/
def ratCeil (q : ℚ) : ℤ := -ratFloor (-q)

/-- Python `int(x)` on a float: truncation toward zero. -/
def pyInt (q : ℚ) : ℤ := if 0 ≤ q then ratFloor q else ratCeil q

theorem ratFloor_eq_floor (q : ℚ) : ratFloor q = ⌊q⌋ := by
  rw [Rat.floor_def, ratFloor]

theorem ratCeil_eq_ceil (q : ℚ) : ratCeil q = ⌈q⌉ := by
  rw [ratCeil, ratFloor_eq_floor, Int.floor_neg, neg_neg]

theorem pyInt_of_nonneg {q : ℚ} (h : 0 ≤ q) : pyInt q = ⌊q⌋ := by
  rw [pyInt, if_pos h, ratFloor_eq_floor]

/-- `str.title()` state machine (restricted to ASCII letters): a letter that
follows a non-letter is uppercased, a letter that follows a letter is
lowercased, non-letters pass through `lower()` unchanged.  The flag records
whether the previous character was a letter. -/
def pyTitleGo : Bool → List Char → List Char
  | _, [] => []
  | prevAlpha, c :: rest =>
      let c' := if c.isAlpha && !prevAlpha then c.toUpper else c.toLower
      c' :: pyTitleGo c.isAlpha rest

/-- Python `segment.title()` for an underscore-free key segment. -/
def pyTitle (cs : List Char) : List Char := pyTitleGo false cs

/-- Python `name.split("_")` at the character-list level: splits on every
underscore, keeping empty segments, and returns `[[]]` for the empty
string (as `"".split("_") == [""]`). -/
def splitUnderscore : List Char → List (List Char)
  | [] => [[]]
  | c :: rest =>
      match splitUnderscore rest with
      | [] => if c = '_' then [[], []] else [[c]]
      | g :: gs => if c = '_' then [] :: g :: gs else (c :: g) :: gs

/-- `convert.to_camel_case`: split the key on underscores, keep the first
segment, `title()`-capitalize each later segment, concatenate. -/
def to_camel_case (name : String) : String :=
  match splitUnderscore name.data with
  | [] => ""
  | p :: ps => String.mk (p ++ (ps.map pyTitle).flatten)

/-- `convert._ENUM_VALUE_CONVERSIONS`: the fixed table of enumerated string
values rewritten to their camelCase spellings. -/
def ENUM_VALUE_CONVERSIONS : List (String × String) :=
  [("above_bar", "aboveBar"),
   ("below_bar", "belowBar"),
   ("in_bar", "inBar"),
   ("arrow_up", "arrowUp"),
   ("arrow_down", "arrowDown")]

/-- Python `_ENUM_VALUE_CONVERSIONS.get(value, value)`. -/
def enumConvert (s : String) : String :=
  match ENUM_VALUE_CONVERSIONS.lookup s with
  | some t => t
  | none => s

mutual

/-- Value side of `convert.convert_options_to_js`: nested dicts are
translated recursively, strings go through the enum table, every other
value (ints, floats, booleans, lists) passes through unchanged. -/
def convertVal : OptVal → OptVal
  | .dict kvs => .dict (convert_options_to_js kvs)
  | .str s => .str (enumConvert s)
  | .int n => .int n
  | .float q => .float q
  | .bool b => .bool b
  | .list xs => .list xs

/-- `convert.convert_options_to_js`: rebuild the mapping entry by entry,
camel-casing each key and converting each value. -/
def convert_options_to_js : OptDict → OptDict
  | [] => []
  | (k, v) :: rest => (to_camel_case k, convertVal v) :: convert_options_to_js rest

end

/-- `convert.convert_options_to_js_list` (also duplicated in `render.py`):
convert each dict of a list. -/
def convert_options_to_js_list (items : List OptDict) : List OptDict :=
  items.map convert_options_to_js

/-- `series.BaseSeries` (value view): id, kind tag, options, data points,
markers and price lines, each mapping modelled as an `OptDict`. -/
structure SeriesPy where
  id : String
  series_type : String
  options : OptDict
  data : List OptDict
  markers : List OptDict
  price_lines : List OptDict

/-- `pane.Pane` (value view): id, options and the ordered series list. -/
structure PanePy where
  id : String
  options : OptDict
  series : List SeriesPy

/-- `chart.Chart` (value view): id, options, ordered pane list, and the
index into `panes` of the lazily created default pane, if present. -/
structure ChartPy where
  id : String
  options : OptDict
  panes : List PanePy
  defaultPane : Option Nat

/-- `Pane.height_ratio`: `options.get("height_ratio", 1.0)` coerced with
`float(...)` when it is an `int`/`float` (Python `bool` is an `int`, hence
`True`/`False` give `1.0`/`0.0`), and `1.0` otherwise. -/
def PanePy.height_ratio (p : PanePy) : ℚ :=
  match dictGet p.options "height_ratio" with
  | some (.int n) => (n : ℚ)
  | some (.float q) => q
  | some (.bool b) => if b then 1 else 0
  | _ => 1

/-- `Chart.width`: `options.get("width", 800)` if it is an `int`
(Python `bool` included), else `800`. -/
def ChartPy.width (c : ChartPy) : ℤ :=
  match dictGet c.options "width" with
  | some (.int n) => n
  | some (.bool b) => if b then 1 else 0
  | _ => 800

/-- `Chart.height`: `options.get("height", 600)` if it is an `int`
(Python `bool` included), else `600`. -/
def ChartPy.height (c : ChartPy) : ℤ :=
  match dictGet c.options "height" with
  | some (.int n) => n
  | some (.bool b) => if b then 1 else 0
  | _ => 600

/-- Loop body of `render._calculate_pane_heights`: every pane except the
last appends `int(total_height * ratio / total_ratio)` and reduces the
remaining budget; the last pane appends whatever budget remains. -/
def paneHeightsAux (total_height : ℤ) (total_ratio : ℚ) :
    List ℚ → ℤ → List ℤ
  | [], _ => []
  | [_], remaining => [remaining]
  | r :: r' :: rest, remaining =>
      let h := pyInt ((total_height : ℚ) * r / total_ratio)
      h :: paneHeightsAux total_height total_ratio (r' :: rest) (remaining - h)

/-- `render._calculate_pane_heights`: pixel heights per pane, allocating
`int(total_height * ratio / sum_of_ratios)` to every pane but the last and
the remaining height to the last pane. -/
def _calculate_pane_heights (panes : List PanePy) (total_height : ℤ) : List ℤ :=
  paneHeightsAux total_height (panes.map PanePy.height_ratio).sum
    (panes.map PanePy.height_ratio) total_height

/-- One emitted statement of the generated initialization script.  Each
constructor records the semantically relevant payload of the corresponding
JS statement emitted by `render.py` / `plugins/marker_tooltips.py`:
`subscribeSync c ts` stands for a `subscribeVisibleLogicalRangeChange`
subscription on `c` whose handler, on a non-null range, calls
`setVisibleLogicalRange` on every instance in `ts`; `overlayInit` stands
for the overlay-initialization statement of `render_tooltip_js` (floating
element appended to the pane container, `subscribeCrosshairMove` hover
subscription, and the id-keyed tooltip lookup table). -/
inductive Stmt where
  | createChart (chart_var container : String) (options : OptDict)
  | addSeries (series_var chart_var series_type : String) (options : OptDict)
  | setData (series_var : String) (data : List OptDict)
  | setMarkers (series_var : String) (payload : List OptDict)
  | subscribeSync (chart_var : String) (targets : List String)
  | overlayInit (chart_var container : String) (tooltips : List (String × OptDict))

/-- `render._render_series_js`: one series-creation statement, one
data-assignment statement, and — only when the marker list is non-empty —
one `setMarkers` statement whose payload is
`convert_options_to_js_list(series.markers)`. -/
def _render_series_js (series : SeriesPy) (chart_var : String) : List Stmt :=
  [.addSeries series.id chart_var series.series_type
      (convert_options_to_js series.options),
   .setData series.id series.data]
  ++ (if series.markers.isEmpty then []
      else [.setMarkers series.id (convert_options_to_js_list series.markers)])

/-- `render._render_time_sync_js`: nothing for fewer than two chart
variables; otherwise, for every variable (in order), one subscription whose
handler targets every other variable (`[v for j, v in enumerate(chart_vars)
if j != i]`, i.e. the list with index `i` removed). -/
def _render_time_sync_js (chart_vars : List String) : List Stmt :=
  if chart_vars.length < 2 then []
  else chart_vars.enum.map fun iv =>
    .subscribeSync iv.2 (chart_vars.eraseIdx iv.1)

/-- Per-pane options object built inline in `render_chart`: a shallow copy
of the chart options with `width`/`height` overridden, and, for every pane
but the last, a copy of the `time_scale` sub-dict with `visible` forced to
`False` (an absent or non-dict `time_scale` contributes an empty dict; a
non-dict value would make Python's `dict(...)` raise, which is outside the
well-formed option trees considered here). -/
def buildPaneOptions (chart : ChartPy) (height : ℤ) (isLast : Bool) : OptDict :=
  let pane_options :=
    pyDictSet (pyDictSet chart.options "width" (.int chart.width))
      "height" (.int height)
  if isLast then pane_options
  else
    let ts := match dictGet pane_options "time_scale" with
      | some (.dict d) => d
      | _ => []
    pyDictSet pane_options "time_scale" (.dict (pyDictSet ts "visible" (.bool false)))

/-- `plugins.marker_tooltips.extract_marker_tooltips`: walk all markers of
all series of the pane and collect, keyed by marker id with last write
winning, the tooltip dicts of markers that carry both a truthy id and a
truthy tooltip (Python truthiness: a non-empty string id and a non-empty
dict tooltip). -/
def extract_marker_tooltips (pane : PanePy) : List (String × OptDict) :=
  pane.series.foldl (fun acc series =>
    series.markers.foldl (fun acc marker =>
      match dictGet marker "id", dictGet marker "tooltip" with
      | some (OptVal.str mid), some (OptVal.dict t) =>
          if mid = "" || t.isEmpty then acc else pyDictSet acc mid t
      | _, _ => acc) acc) []

/-- `plugins.marker_tooltips.render_tooltip_js`: the single
overlay-initialization statement for one pane. -/
def render_tooltip_js (chart_var container : String)
    (tooltips : List (String × OptDict)) : Stmt :=
  .overlayInit chart_var container tooltips

/-- Result of `render.render_chart`, keeping the semantically relevant
parts of the emitted document: whether the zero-pane placeholder ("No data
to display", no script) was produced, the per-pane container divs as
`(container id, width, height)` triples, and the script statements in
emission order. -/
structure RenderedChart where
  placeholder : Bool
  paneDivs : List (String × ℤ × ℤ)
  stmts : List Stmt

/-- `render.render_chart`: zero panes give the placeholder document;
otherwise one sized container div per pane, then per pane (in order) one
`createChart` statement with the merged options followed by the statements
of its series, and finally the time-scale synchronization statements when
more than one pane exists.  No other statements are emitted. -/
def render_chart (chart : ChartPy) : RenderedChart :=
  let container_id := "container_" ++ chart.id
  if chart.panes.isEmpty then ⟨true, [], []⟩
  else
    let heights := _calculate_pane_heights chart.panes chart.height
    let divs := heights.enum.map fun ih =>
      (container_id ++ "_pane_" ++ toString ih.1, chart.width, ih.2)
    let n := chart.panes.length
    let paneStmts := (chart.panes.enum.map fun ip =>
      Stmt.createChart ("chart_" ++ ip.2.id)
          (container_id ++ "_pane_" ++ toString ip.1)
          (convert_options_to_js
            (buildPaneOptions chart (heights.getD ip.1 0) (ip.1 = n - 1)))
        :: (ip.2.series.map fun s => _render_series_js s ("chart_" ++ ip.2.id)).flatten).flatten
    let sync := _render_time_sync_js (chart.panes.map fun p => "chart_" ++ p.id)
    ⟨false, divs, paneStmts ++ sync⟩

/-- A Python `datetime` value at second precision: proleptic Gregorian
calendar components plus, for an aware value, the `utcoffset()` in
seconds. -/
structure PyDatetime where
  year : ℤ
  month : ℤ
  day : ℤ
  hour : ℤ
  minute : ℤ
  second : ℤ
  tzOffset : Option ℤ

/-- Days from 1970-01-01 to the given proleptic Gregorian date (the
day-count performed by `calendar.timegm` via `struct_time`); standard
civil-from-days arithmetic, using Lean's `Int` division, which rounds
toward negative infinity for the positive divisors used here. -/
def days_from_civil (y m d : ℤ) : ℤ :=
  let y' := if m ≤ 2 then y - 1 else y
  let era := y' / 400
  let yoe := y' - era * 400
  let doy := (153 * (if 2 < m then m - 3 else m + 9) + 2) / 5 + d - 1
  let doe := yoe * 365 + yoe / 4 - yoe / 100 + doy
  era * 146097 + doe - 719468

/-- `calendar.timegm` on the time tuple of a naive datetime: UTC calendar
arithmetic from the components, no timezone involved. -/
def timegm (dt : PyDatetime) : ℤ :=
  days_from_civil dt.year dt.month dt.day * 86400
    + dt.hour * 3600 + dt.minute * 60 + dt.second

/-- `calendar.timegm(dt.utctimetuple())` at second precision:
`utctimetuple()` of an aware datetime yields the components of
`dt - utcoffset()`, and `timegm` is the calendar-to-epoch bijection, so
the result is `timegm(components) - offset`; a naive datetime (offset
absent) is taken as UTC, matching `dt.replace(tzinfo=timezone.utc)`. -/
def timegmUtc (dt : PyDatetime) : ℤ :=
  timegm dt - dt.tzOffset.getD 0

/-- Python `s.replace("Z", "+00:00")` at the character level (every
occurrence). -/
def replaceZ : List Char → List Char
  | [] => []
  | c :: rest =>
      if c = 'Z' then '+' :: '0' :: '0' :: ':' :: '0' :: '0' :: replaceZ rest
      else c :: replaceZ rest

/-- Read exactly `n` decimal digits, returning the accumulated value and
the remaining characters. -/
def readDigits : ℕ → ℕ → List Char → Option (ℕ × List Char)
  | 0, acc, cs => some (acc, cs)
  | _ + 1, _, [] => none
  | n + 1, acc, c :: cs =>
      if c.isDigit then readDigits n (acc * 10 + (c.toNat - 48)) cs else none

/-- Expect one fixed character at the head of the input. -/
def expectChar (c : Char) : List Char → Option (List Char)
  | [] => none
  | c' :: cs => if c' = c then some cs else none

/-- Parse `HH:MM:SS`. -/
def parseHms (cs : List Char) : Option (ℕ × ℕ × ℕ × List Char) := do
  let (h, cs) ← readDigits 2 0 cs
  let cs ← expectChar ':' cs
  let (mi, cs) ← readDigits 2 0 cs
  let cs ← expectChar ':' cs
  let (s, cs) ← readDigits 2 0 cs
  return (h, mi, s, cs)

/-- Model of `datetime.fromisoformat`, restricted to the forms that the
library feeds it after the `"Z" → "+00:00"` rewrite: `YYYY-MM-DD`,
optionally followed by `THH:MM:SS`, optionally followed by a `±HH:MM`
offset. -/
def fromisoformat (s : String) : Option PyDatetime := do
  let cs := s.data
  let (y, cs) ← readDigits 4 0 cs
  let cs ← expectChar '-' cs
  let (mo, cs) ← readDigits 2 0 cs
  let cs ← expectChar '-' cs
  let (d, cs) ← readDigits 2 0 cs
  match cs with
  | [] => some ⟨y, mo, d, 0, 0, 0, none⟩
  | 'T' :: cs => do
      let (h, mi, sec, cs) ← parseHms cs
      match cs with
      | [] => some ⟨y, mo, d, h, mi, sec, none⟩
      | sign :: cs => do
          let neg ← if sign = '+' then some false
                    else if sign = '-' then some true else none
          let (oh, cs) ← readDigits 2 0 cs
          let cs ← expectChar ':' cs
          let (om, cs) ← readDigits 2 0 cs
          match cs with
          | [] =>
              let off : ℤ := (oh : ℤ) * 3600 + (om : ℤ) * 60
              some ⟨y, mo, d, h, mi, sec, some (if neg then -off else off)⟩
          | _ => none
  | _ => none

/-- The dynamic argument of `convert.to_unix_timestamp`: the `isinstance`
chain of the source distinguishes ints, floats, strings and datetimes;
`epochObj` stands for any other object exposing a zero-argument
`timestamp()` returning epoch seconds (checked with `hasattr`), and
`unsupported` for everything else. -/
inductive TimeValue where
  | int (n : ℤ)
  | float (q : ℚ)
  | str (s : String)
  | datetime (dt : PyDatetime)
  | epochObj (q : ℚ)
  | unsupported

/-- `convert.to_unix_timestamp`: int passes through, float truncates
toward zero, a string is parsed after rewriting `"Z"` to `"+00:00"` and
converted with UTC calendar arithmetic, a datetime (naive taken as UTC)
goes through `timegm(utctimetuple())`, a `timestamp()`-capable object
yields `int(obj.timestamp())`, and anything else raises `TypeError`. -/
def to_unix_timestamp : TimeValue → Except String ℤ
  | .int n => .ok n
  | .float q => .ok (pyInt q)
  | .str s =>
      match fromisoformat (String.mk (replaceZ s.data)) with
      | some dt => .ok (timegmUtc dt)
      | none => .error "ValueError: invalid isoformat string"
  | .datetime dt => .ok (timegmUtc dt)
  | .epochObj q => .ok (pyInt q)
  | .unsupported => .error "TypeError: Unsupported time type"

/-- `series.BaseSeries.__init__` (value view): fresh id, a copy of the
given options (`{}` when the argument is absent or falsy), empty data,
markers and price lines. -/
def mkSeries (fresh_id series_type : String) (options : Option OptDict) : SeriesPy :=
  { id := fresh_id, series_type := series_type, options := options.getD [],
    data := [], markers := [], price_lines := [] }

/-- Modelled from the spec: `Pane.add_series(kind, options)` is called by
`Chart.add_series` and by the tests, but no generic `add_series` method
appears in `pane.py` under `src/` (only the per-kind
`add_candlestick_series`, ... variants).  Per the spec it "constructs a
Series of the given kind with a freshly generated unique id and appends
it; returns the new Series"; the series construction itself follows
`series.BaseSeries.__init__`. -/
def PanePy.add_series (p : PanePy) (series_type : String)
    (options : Option OptDict) (fresh_id : String) : SeriesPy × PanePy :=
  let s := mkSeries fresh_id series_type options
  (s, { p with series := p.series ++ [s] })

/-- `Chart._get_default_pane`: reuse the default pane if it exists,
otherwise create a fresh pane, append it and remember it.  Returns the
index of the default pane in the pane list. -/
def ChartPy.get_default_pane (c : ChartPy) (fresh_pane_id : String) :
    Nat × ChartPy :=
  match c.defaultPane with
  | some idx => (idx, c)
  | none =>
      (c.panes.length,
       { c with panes := c.panes ++ [⟨fresh_pane_id, [], []⟩],
                defaultPane := some c.panes.length })

/-- `Chart.add_series`: an explicit `pane_index` is bounds-checked before
anything is constructed or mutated (`IndexError` when `pane_index < 0` or
`>= len(panes)`); in range, the series is added to that pane; without
`pane_index`, the default pane is fetched or lazily created.  The result
pairs the raised-or-returned value with the chart state after the call. -/
def ChartPy.add_series (c : ChartPy) (series_type : String)
    (options : Option OptDict) (pane_index : Option ℤ)
    (fresh_series_id fresh_pane_id : String) :
    Except String SeriesPy × ChartPy :=
  match pane_index with
  | some i =>
      if i < 0 ∨ (c.panes.length : ℤ) ≤ i then
        (.error "IndexError: Pane index out of range", c)
      else
        match c.panes.get? i.toNat with
        | some pane =>
            let (s, pane') := pane.add_series series_type options fresh_series_id
            (.ok s, { c with panes := c.panes.set i.toNat pane' })
        | none => (.error "IndexError: Pane index out of range", c)
  | none =>
      let (idx, c') := c.get_default_pane fresh_pane_id
      match c'.panes.get? idx with
      | some pane =>
          let (s, pane') := pane.add_series series_type options fresh_series_id
          (.ok s, { c' with panes := c'.panes.set idx pane' })
      | none => (.error "IndexError: Pane index out of range", c')

/-! ### Reference-semantics model

Python dicts are heap objects; claims about mutation and aliasing are
settled against this explicit heap.  An address is an index into the heap,
a heap cell is a dict, and a dict value is a primitive or a reference to
another cell.  Allocation appends a cell, so every pre-existing address
stays valid and a cell is mutated only by `Heap.setKey` at its address. -/

/-- A Python value stored inside a heap dict: primitives plus references
to other heap dicts (nested mappings are always by reference in Python). -/
inductive HVal where
  | int (n : ℤ)
  | float (q : ℚ)
  | bool (b : Bool)
  | str (s : String)
  | ref (a : ℕ)

/-- A heap cell: one Python dict. -/
abbrev HDict := List (String × HVal)

/-- The heap: cell `a` is the dict at index `a`. -/
abbrev Heap := List HDict

/-- Read the cell at an address (absent addresses read as empty). -/
def Heap.getD (h : Heap) (a : ℕ) : HDict := List.getD h a []

/-- Allocate a fresh cell holding `d`; its address is the old length. -/
def Heap.alloc (h : Heap) (d : HDict) : Heap × ℕ := (h ++ [d], h.length)

/-- Python `obj[k] = v` on the dict at address `a`. -/
def Heap.setKey (h : Heap) (a : ℕ) (k : String) (v : HVal) : Heap :=
  h.set a (pyDictSet (h.getD a) k v)

/-- `to_unix_timestamp` applied to a value read out of a heap dict: ints
pass through (Python `bool` is an `int`, so it passes through too), floats
truncate, strings parse as ISO-8601, and a reference (a nested dict) has
no `timestamp()` attribute, so it raises `TypeError`. -/
def hToUnix : HVal → Except String HVal
  | .int n => .ok (.int n)
  | .bool b => .ok (.bool b)
  | .float q => .ok (.int (pyInt q))
  | .str s =>
      match fromisoformat (String.mk (replaceZ s.data)) with
      | some dt => .ok (.int (timegmUtc dt))
      | none => .error "ValueError: invalid isoformat string"
  | .ref _ => .error "TypeError: Unsupported time type"

/-- Copy a dict and normalize its `"time"` entry, when present — the
shared body of `BaseSeries.update` and `create_series_markers`
(`x.copy()` followed by `x["time"] = to_unix_timestamp(x["time"])` on the
copy). -/
def copyWithTime (d : HDict) : Except String HDict :=
  match dictGet d "time" with
  | none => .ok d
  | some tv => (hToUnix tv).map fun tv' => pyDictSet d "time" tv'

/-- `Chart.__init__` under reference semantics: `options.copy() if options
else {}` allocates a fresh dict — a shallow copy of the caller's dict, or
an empty one when the argument is absent (a falsy empty dict copies to the
same empty contents).  Returns the address stored in `self._options`. -/
def chartInitOptions (h : Heap) (optsRef : Option ℕ) : Heap × ℕ :=
  match optsRef with
  | some r => h.alloc (h.getD r)
  | none => h.alloc []

/-- `BaseSeries.update` under reference semantics: the caller's data-point
dict at `barRef` is copied, the copy's `"time"` entry is normalized, and
the copy is appended to the stored data list.  The net heap effect is one
fresh cell; the caller's cell is only read. -/
def seriesUpdate (h : Heap) (dataRefs : List ℕ) (barRef : ℕ) :
    Except String (Heap × List ℕ) :=
  (copyWithTime (h.getD barRef)).map fun normalized =>
    let r := h.alloc normalized
    (r.1, dataRefs ++ [r.2])

/-- Loop of `create_series_markers`: pending marker addresses are copied
(with time normalized) one by one into fresh cells. -/
def createMarkersGo (h : Heap) : List ℕ → List ℕ →
    Except String (Heap × List ℕ)
  | [], acc => .ok (h, acc)
  | r :: rest, acc =>
      (copyWithTime (h.getD r)).bind fun normalized =>
        let r1 := h.alloc normalized
        createMarkersGo r1.1 rest (acc ++ [r1.2])

/-- `series.create_series_markers` under reference semantics: the stored
marker list is reset to empty and, for each caller marker dict, a copy
with normalized time is allocated and appended; the caller's dicts are
only read.  Returns the new stored marker list (of fresh addresses). -/
def create_series_markers (h : Heap) (markerRefs : List ℕ) :
    Except String (Heap × List ℕ) :=
  createMarkersGo h markerRefs []

/-- Heap-level model of the per-pane options construction in
`render_chart` (render.py, the body of the `for i, pane in
enumerate(panes)` loop): `pane_options = dict(chart.options)` allocates a
shallow copy, `"width"` and `"height"` are assigned on the copy, and for
every pane but the last, `time_scale = dict(pane_options.get("time_scale",
{}))` allocates a copy of the nested dict (empty when absent; a present
non-dict value would make Python's `dict(...)` raise and is outside the
well-formed option trees considered here), `"visible"` is assigned on that
copy, and the copy is referenced from the pane options. -/
def buildPaneOptionsH (h : Heap) (optsRef : ℕ) (width height : ℤ)
    (isLast : Bool) : Heap × ℕ :=
  let r1 := h.alloc (h.getD optsRef)
  let p := r1.2
  let h2 := (r1.1.setKey p "width" (.int width)).setKey p "height" (.int height)
  if isLast then (h2, p)
  else
    let ts := match dictGet (h2.getD p) "time_scale" with
      | some (.ref a) => h2.getD a
      | _ => []
    let r3 := h2.alloc ts
    let h4 := r3.1.setKey r3.2 "visible" (.bool false)
    (h4.setKey p "time_scale" (.ref r3.2), p)

/-- The complete sequence of heap effects of `render_chart`: one
`buildPaneOptionsH` per pane, in pane order, fed with that pane's computed
pixel height and is-last flag.  Every other statement of `render_chart`
and of the helpers it calls only reads the chart tree or builds local
strings and lists, so `render_chart`'s effect on the heap is exactly this
fold. -/
def renderOptionsLoopH (optsRef : ℕ) (width : ℤ) :
    Heap → List (ℤ × Bool) → Heap × List ℕ
  | h, [] => (h, [])
  | h, (ht, last) :: rest =>
      let r1 := buildPaneOptionsH h optsRef width ht last
      let r2 := renderOptionsLoopH optsRef width r1.1 rest
      (r2.1, r1.2 :: r2.2)

/-- The heap effects of `render_chart` on a chart whose options dict lives
at `optsRef`: the per-pane options loop over the computed heights, the
last pane flagged. -/
def render_chart_heap (h : Heap) (optsRef : ℕ) (width : ℤ)
    (heights : List ℤ) : Heap × List ℕ :=
  renderOptionsLoopH optsRef width h
    (heights.enum.map fun ih => (ih.2, ih.1 = heights.length - 1))

mutual

/-- Structural-shape agreement of two option values: same constructor,
with dicts compared entrywise (keys and primitive contents may differ).
Used to state that option translation returns a structurally identical
mapping. -/
def sameShape : OptVal → OptVal → Bool
  | .int _, .int _ => true
  | .float _, .float _ => true
  | .bool _, .bool _ => true
  | .str _, .str _ => true
  | .list _, .list _ => true
  | .dict d1, .dict d2 => sameShapeDict d1 d2
  | _, _ => false

/-- Entrywise structural-shape agreement of two dicts. -/
def sameShapeDict : OptDict → OptDict → Bool
  | [], [] => true
  | (_, v1) :: r1, (_, v2) :: r2 => sameShape v1 v2 && sameShapeDict r1 r2
  | _, _ => false

end

mutual

/-- No key of a nested option value contains an underscore. -/
def noUnderscoreKeysVal : OptVal → Bool
  | .dict kvs => noUnderscoreKeys kvs
  | _ => true

/-- No key of a mapping, at any nesting depth, contains an underscore. -/
def noUnderscoreKeys : OptDict → Bool
  | [] => true
  | (k, v) :: rest =>
      decide ('_' ∉ k.data) && noUnderscoreKeysVal v &&
        noUnderscoreKeys rest

end

mutual

/-- No string value of a nested option value is in the enum table. -/
def noEnumValuesVal : OptVal → Bool
  | .dict kvs => noEnumValues kvs
  | .str s => decide (s ∉ ENUM_VALUE_CONVERSIONS.map Prod.fst)
  | _ => true

/-- No string value of a mapping, at any nesting depth, is in the enum
table. -/
def noEnumValues : OptDict → Bool
  | [] => true
  | (_, v) :: rest => noEnumValuesVal v && noEnumValues rest

end

/-- The `chart_vars` list accumulated by `render_chart`: one JS chart
variable name per pane, in pane order. -/
def chartVars (chart : ChartPy) : List String :=
  chart.panes.map fun p => "chart_" ++ p.id

/-- Recognizer for the time-scale synchronization subscription statement. -/
def isSubscribeSync : Stmt → Bool
  | .subscribeSync _ _ => true
  | _ => false

/-- Recognizer for a synchronization subscription registered on a given
chart variable. -/
def subscribesTo (v : String) : Stmt → Bool
  | .subscribeSync v' _ => v' = v
  | _ => false

/-- Recognizer for the tooltip-overlay initialization statement. -/
def isOverlayInit : Stmt → Bool
  | .overlayInit _ _ _ => true
  | _ => false

/-- A marker carrying both an id and a tooltip payload (the failing input
of the tooltip claims). -/
def tooltipMarker : OptDict :=
  [("time", .int 1609459200), ("position", .str "above_bar"),
   ("shape", .str "arrow_down"), ("id", .str "trade-1"),
   ("tooltip", .dict [("title", .str "Sell Signal"),
                      ("fields", .dict [("Price", .str "$100")])])]

/-- A series holding `tooltipMarker`. -/
def tooltipSeries : SeriesPy :=
  ⟨"series_1", "Candlestick", [], [], [tooltipMarker], []⟩

/-- A pane holding `tooltipSeries`. -/
def tooltipPane : PanePy := ⟨"pane_1", [], [tooltipSeries]⟩

/-- A one-pane chart holding `tooltipPane`. -/
def tooltipChart : ChartPy := ⟨"chart_1", [], [tooltipPane], none⟩

/-! ### Pane-height allocation (C1) -/

/-- Closed form of the allocation loop: every pane but the last gets the
truncated proportional share, and the final pane gets the remaining
budget. -/
theorem paneHeightsAux_eq (H : ℤ) (R : ℚ) :
    ∀ (rs : List ℚ) (rem : ℤ), rs ≠ [] →
    paneHeightsAux H R rs rem =
      (rs.dropLast.map fun r => pyInt ((H : ℚ) * r / R)) ++
        [rem - ((rs.dropLast.map fun r => pyInt ((H : ℚ) * r / R)).sum)] := by
  intro rs
  induction rs with
  | nil => intro rem h; exact absurd rfl h
  | cons r rest ih =>
      intro rem _
      cases rest with
      | nil => simp [paneHeightsAux]
      | cons r' rest' =>
          rw [paneHeightsAux, ih _ (by simp)]
          simp [List.dropLast_cons₂, sub_sub]

/-- Cast helper: a sum of integer lower bounds is below the sum of the
rationals they bound. -/
theorem cast_sum_map_le (l : List ℚ) (g : ℚ → ℤ) (f : ℚ → ℚ)
    (h : ∀ x ∈ l, ((g x : ℤ) : ℚ) ≤ f x) :
    (((l.map g).sum : ℤ) : ℚ) ≤ (l.map f).sum := by
  induction l with
  | nil => simp
  | cons a l ih =>
      simp only [List.map_cons, List.sum_cons, Int.cast_add]
      exact add_le_add (h a (by simp))
        (ih fun x hx => h x (List.mem_cons_of_mem _ hx))

/-- Shared-factor helper for proportional shares. -/
theorem sum_map_share (c : ℚ) (l : List ℚ) :
    (l.map fun r => c * r).sum = c * l.sum := by
  induction l with
  | nil => simp
  | cons a l ih => simp only [List.map_cons, List.sum_cons, ih, mul_add]

/-- The truncated proportional shares of all panes but the last sum to at
most the total height, for positive ratios and nonnegative height. -/
theorem sum_trunc_shares_le (H : ℤ) (rs : List ℚ) (hH : 0 ≤ H)
    (hpos : ∀ r ∈ rs, 0 < r) (hne : rs ≠ []) :
    (rs.dropLast.map fun r => pyInt ((H : ℚ) * r / rs.sum)).sum ≤ H := by
  have hR : 0 < rs.sum := List.sum_pos rs hpos hne
  have hHq : (0 : ℚ) ≤ (H : ℚ) := by exact_mod_cast hH
  have hsub : ∀ r ∈ rs.dropLast, r ∈ rs := fun r hr =>
    (List.dropLast_sublist rs).subset hr
  have hstep : ∀ r ∈ rs.dropLast,
      ((pyInt ((H : ℚ) * r / rs.sum) : ℤ) : ℚ) ≤ (H : ℚ) * r / rs.sum := by
    intro r hr
    have h0 : (0 : ℚ) ≤ (H : ℚ) * r / rs.sum :=
      div_nonneg (mul_nonneg hHq (le_of_lt (hpos r (hsub r hr)))) (le_of_lt hR)
    rw [pyInt_of_nonneg h0]
    exact Int.floor_le _
  have h1 := cast_sum_map_le rs.dropLast _ _ hstep
  have h2 : (rs.dropLast.map fun r => (H : ℚ) * r / rs.sum).sum
      = ((H : ℚ) / rs.sum) * rs.dropLast.sum := by
    rw [← sum_map_share ((H : ℚ) / rs.sum) rs.dropLast]
    apply congrArg List.sum
    apply List.map_congr_left
    intro r _
    ring
  have h3 : rs.dropLast.sum ≤ rs.sum := by
    conv_rhs => rw [← List.dropLast_append_getLast hne]
    rw [List.sum_append, List.sum_cons, List.sum_nil]
    have := hpos _ (List.getLast_mem hne)
    linarith
  have h4 : ((H : ℚ) / rs.sum) * rs.dropLast.sum ≤ (H : ℚ) := by
    have hd : (0 : ℚ) ≤ (H : ℚ) / rs.sum := div_nonneg hHq (le_of_lt hR)
    calc ((H : ℚ) / rs.sum) * rs.dropLast.sum
        ≤ ((H : ℚ) / rs.sum) * rs.sum := mul_le_mul_of_nonneg_left h3 hd
      _ = (H : ℚ) := div_mul_cancel₀ _ (ne_of_gt hR)
  have : (((rs.dropLast.map fun r => pyInt ((H : ℚ) * r / rs.sum)).sum : ℤ) : ℚ)
      ≤ (H : ℚ) := le_trans h1 (le_trans (le_of_eq h2) h4)
  exact_mod_cast this

/-- C1: for a chart with at least one pane, positive height ratios and a
nonnegative total height `H`, the computed pane pixel heights are one per
pane, each `≥ 0`, they sum exactly to `H`, every pane but the last gets
`⌊H * rᵢ / R⌋` where `R` is the sum of all ratios, and the last pane gets
`H` minus the sum of all earlier heights. -/
theorem C1_pane_heights (panes : List PanePy) (H : ℤ)
    (hne : panes ≠ [])
    (hpos : ∀ p ∈ panes, 0 < p.height_ratio)
    (hH : 0 ≤ H) :
    (_calculate_pane_heights panes H).length = panes.length ∧
    (∀ x ∈ _calculate_pane_heights panes H, 0 ≤ x) ∧
    (_calculate_pane_heights panes H).sum = H ∧
    (∀ i, i + 1 < panes.length →
      (_calculate_pane_heights panes H).getD i 0 =
        ⌊(H : ℚ) * ((panes.map PanePy.height_ratio).getD i 0) /
            (panes.map PanePy.height_ratio).sum⌋) ∧
    (_calculate_pane_heights panes H).getD (panes.length - 1) 0 =
      H - ((_calculate_pane_heights panes H).take (panes.length - 1)).sum := by
  have hrs_ne : panes.map PanePy.height_ratio ≠ [] := by
    simpa using hne
  have hrs_pos : ∀ r ∈ panes.map PanePy.height_ratio, 0 < r := by
    intro r hr
    obtain ⟨p, hp, rfl⟩ := List.mem_map.mp hr
    exact hpos p hp
  have hR : 0 < (panes.map PanePy.height_ratio).sum :=
    List.sum_pos _ hrs_pos hrs_ne
  have hHq : (0 : ℚ) ≤ (H : ℚ) := by exact_mod_cast hH
  have hcalc : _calculate_pane_heights panes H =
      ((panes.map PanePy.height_ratio).dropLast.map fun r =>
        pyInt ((H : ℚ) * r / (panes.map PanePy.height_ratio).sum)) ++
      [H - (((panes.map PanePy.height_ratio).dropLast.map fun r =>
        pyInt ((H : ℚ) * r / (panes.map PanePy.height_ratio).sum)).sum)] :=
    paneHeightsAux_eq H _ _ H hrs_ne
  have hAlen : ((panes.map PanePy.height_ratio).dropLast.map fun r =>
      pyInt ((H : ℚ) * r / (panes.map PanePy.height_ratio).sum)).length
      = panes.length - 1 := by
    simp [List.length_dropLast]
  have hplen : 0 < panes.length := List.length_pos.mpr hne
  refine ⟨?_, ?_, ?_, ?_, ?_⟩
  · rw [hcalc]
    simp only [List.length_append, hAlen, List.length_singleton]
    omega
  · intro x hx
    rw [hcalc] at hx
    rcases List.mem_append.mp hx with hx | hx
    · obtain ⟨r, hr, rfl⟩ := List.mem_map.mp hx
      have hrpos : 0 < r := hrs_pos r ((List.dropLast_sublist _).subset hr)
      have h0 : (0 : ℚ) ≤ (H : ℚ) * r / (panes.map PanePy.height_ratio).sum :=
        div_nonneg (mul_nonneg hHq hrpos.le) hR.le
      rw [pyInt_of_nonneg h0]
      exact Int.floor_nonneg.mpr h0
    · rcases List.mem_singleton.mp hx with rfl
      have := sum_trunc_shares_le H (panes.map PanePy.height_ratio) hH hrs_pos hrs_ne
      omega
  · rw [hcalc, List.sum_append, List.sum_cons, List.sum_nil]
    ring
  · intro i hi
    rw [hcalc, List.getD_append _ _ _ _ (by omega)]
    have hilt : i < ((panes.map PanePy.height_ratio).dropLast.map fun r =>
        pyInt ((H : ℚ) * r / (panes.map PanePy.height_ratio).sum)).length := by
      omega
    have hid : i < (panes.map PanePy.height_ratio).dropLast.length := by
      simpa using hilt
    have hirs : i < (panes.map PanePy.height_ratio).length := by
      simp only [List.length_dropLast] at hid
      omega
    rw [List.getD_eq_getElem _ _ hilt, List.getElem_map,
      List.getElem_dropLast, List.getD_eq_getElem _ _ hirs]
    have hr : 0 < (panes.map PanePy.height_ratio)[i] :=
      hrs_pos _ (List.getElem_mem _)
    exact pyInt_of_nonneg (div_nonneg (mul_nonneg hHq hr.le) hR.le)
  · rw [hcalc]
    rw [List.getD_append_right _ _ _ _ (by omega)]
    rw [List.take_append_of_le_length (by omega), List.take_of_length_le (by omega)]
    simp [hAlen]

/-- Witness for C1: a two-pane chart with height ratios 3 and 1 and total
height 800 satisfies all hypotheses, and the heights sum to 800. -/
theorem C1_pane_heights_witness :
    ([(⟨"p1", [("height_ratio", OptVal.float 3)], []⟩ : PanePy),
      ⟨"p2", [], []⟩] ≠ []) ∧
    (∀ p ∈ [(⟨"p1", [("height_ratio", OptVal.float 3)], []⟩ : PanePy),
      ⟨"p2", [], []⟩], 0 < p.height_ratio) ∧
    (0 : ℤ) ≤ 800 ∧
    (_calculate_pane_heights
      [(⟨"p1", [("height_ratio", OptVal.float 3)], []⟩ : PanePy), ⟨"p2", [], []⟩]
      800).sum = 800 :=
  ⟨by simp, by decide, by decide,
   (C1_pane_heights _ 800 (by simp) (by decide) (by decide)).2.2.1⟩

/-! ### Marker payloads and the tooltip overlay (C2, C3) -/

/-- C2: contrary to the claim, the `setMarkers` payload emitted by
`_render_series_js` is `convert_options_to_js_list(series.markers)` with
no tooltip stripping: at the failing input the emitted payload still
carries the `"tooltip"` entry (translated like any other nested option),
while — as the claim correctly says — the stored marker list holds the
tooltip intact. -/
theorem C2_tooltip_kept_in_payload :
    _render_series_js tooltipSeries "chart_c" =
      [.addSeries "series_1" "chart_c" "Candlestick" [],
       .setData "series_1" [],
       .setMarkers "series_1"
         [[("time", .int 1609459200), ("position", .str "aboveBar"),
           ("shape", .str "arrowDown"), ("id", .str "trade-1"),
           ("tooltip", .dict [("title", .str "Sell Signal"),
                              ("fields", .dict [("Price", .str "$100")])])]]] ∧
    dictGet ((convert_options_to_js_list tooltipSeries.markers).getD 0 [])
        "tooltip"
      = some (.dict [("title", .str "Sell Signal"),
                     ("fields", .dict [("Price", .str "$100")])]) ∧
    dictGet (tooltipSeries.markers.getD 0 []) "tooltip"
      = some (.dict [("title", .str "Sell Signal"),
                     ("fields", .dict [("Price", .str "$100")])]) :=
  ⟨rfl, rfl, rfl⟩

/-- C3: contrary to the claim, `render_chart` emits no
overlay-initialization statement at all, even for a pane whose tooltip
lookup table (`extract_marker_tooltips`, which the plugin module does
provide) is non-empty: the full statement list of the rendered document at
the failing input contains instantiation, series, data and marker
statements but no `overlayInit`. -/
theorem C3_no_overlay_emitted :
    extract_marker_tooltips tooltipPane =
      [("trade-1", [("title", .str "Sell Signal"),
                    ("fields", .dict [("Price", .str "$100")])])] ∧
    (render_chart tooltipChart).stmts =
      [.createChart "chart_pane_1" "container_chart_1_pane_0"
         [("width", .int 800), ("height", .int 600)],
       .addSeries "series_1" "chart_pane_1" "Candlestick" [],
       .setData "series_1" [],
       .setMarkers "series_1"
         [[("time", .int 1609459200), ("position", .str "aboveBar"),
           ("shape", .str "arrowDown"), ("id", .str "trade-1"),
           ("tooltip", .dict [("title", .str "Sell Signal"),
                              ("fields", .dict [("Price", .str "$100")])])]]] ∧
    (render_chart tooltipChart).stmts.filter isOverlayInit = [] :=
  ⟨rfl, rfl, rfl⟩

/-- The emitted statement list of a chart with no panes is empty (only the
placeholder document is produced). -/
theorem render_chart_stmts_empty (chart : ChartPy)
    (h : chart.panes.isEmpty = true) : (render_chart chart).stmts = [] := by
  rw [render_chart]
  simp [h]

/-- The emitted statement list of a chart with at least one pane: per-pane
blocks (one `createChart` followed by the series statements), then the
synchronization statements. -/
theorem render_chart_stmts_eq (chart : ChartPy)
    (h : chart.panes.isEmpty = false) :
    (render_chart chart).stmts =
      (chart.panes.enum.map fun ip =>
        Stmt.createChart ("chart_" ++ ip.2.id)
            ("container_" ++ chart.id ++ "_pane_" ++ toString ip.1)
            (convert_options_to_js
              (buildPaneOptions chart
                ((_calculate_pane_heights chart.panes chart.height).getD ip.1 0)
                (ip.1 = chart.panes.length - 1)))
          :: (ip.2.series.map fun s =>
                _render_series_js s ("chart_" ++ ip.2.id)).flatten).flatten
      ++ _render_time_sync_js (chartVars chart) := by
  rw [render_chart, chartVars]
  simp [h, List.getD]

/-- Helper: a statement produced by `_render_series_js` is never an
overlay initialization. -/
theorem not_overlay_of_mem_render_series (s : SeriesPy) (v : String) :
    ∀ st ∈ _render_series_js s v, isOverlayInit st = false := by
  intro st hst
  rw [_render_series_js] at hst
  rcases List.mem_append.mp hst with h | h
  · simp only [List.mem_cons, List.not_mem_nil, or_false] at h
    rcases h with rfl | rfl
    · rfl
    · rfl
  · by_cases hm : s.markers.isEmpty
    · rw [if_pos hm] at h; cases h
    · rw [if_neg hm] at h
      rcases List.mem_singleton.mp h with rfl
      rfl

/-- C3 (universal form): no chart whatsoever makes `render_chart` emit an
overlay-initialization statement — the renderer never calls the plugin. -/
theorem C3_no_overlay_universal (chart : ChartPy) :
    (render_chart chart).stmts.filter isOverlayInit = [] := by
  rw [List.filter_eq_nil_iff]
  intro st hst
  by_cases hemp : chart.panes.isEmpty
  · rw [render_chart_stmts_empty chart hemp] at hst
    cases hst
  · rw [render_chart_stmts_eq chart (by simpa using hemp)] at hst
    simp only [List.mem_append] at hst
    rcases hst with hst | hst
    · simp only [List.mem_flatten, List.mem_map] at hst
      obtain ⟨block, ⟨ip, _, rfl⟩, hmem⟩ := hst
      simp only [List.mem_cons] at hmem
      rcases hmem with rfl | hmem
      · simp [isOverlayInit]
      · simp only [List.mem_flatten, List.mem_map] at hmem
        obtain ⟨blk, ⟨sp, _, rfl⟩, hs⟩ := hmem
        simp [not_overlay_of_mem_render_series sp _ _ hs]
    · rw [_render_time_sync_js] at hst
      by_cases hlen : (chartVars chart).length < 2
      · rw [if_pos hlen] at hst; cases hst
      · rw [if_neg hlen] at hst
        simp only [List.mem_map] at hst
        obtain ⟨iv, _, rfl⟩ := hst
        simp [isOverlayInit]

/-! ### Time-scale synchronization (C4) -/

/-- Helper: a statement produced by `_render_series_js` is never a
synchronization subscription. -/
theorem not_sync_of_mem_render_series (s : SeriesPy) (v : String) :
    ∀ st ∈ _render_series_js s v,
      isSubscribeSync st = false ∧ ∀ w, subscribesTo w st = false := by
  intro st hst
  rw [_render_series_js] at hst
  rcases List.mem_append.mp hst with h | h
  · simp only [List.mem_cons, List.not_mem_nil, or_false] at h
    rcases h with rfl | rfl
    · exact ⟨rfl, fun _ => rfl⟩
    · exact ⟨rfl, fun _ => rfl⟩
  · by_cases hm : s.markers.isEmpty
    · rw [if_pos hm] at h; cases h
    · rw [if_neg hm] at h
      rcases List.mem_singleton.mp h with rfl
      exact ⟨rfl, fun _ => rfl⟩

/-- Helper: a predicate that rejects `createChart` and every series
statement filters the per-pane blocks of `render_chart` to nothing. -/
theorem filter_pane_blocks_eq_nil (chart : ChartPy) (p : Stmt → Bool)
    (hcreate : ∀ a b c, p (.createChart a b c) = false)
    (hser : ∀ s v, ∀ st ∈ _render_series_js s v, p st = false) :
    ((chart.panes.enum.map fun ip =>
        Stmt.createChart ("chart_" ++ ip.2.id)
            ("container_" ++ chart.id ++ "_pane_" ++ toString ip.1)
            (convert_options_to_js
              (buildPaneOptions chart
                ((_calculate_pane_heights chart.panes chart.height).getD ip.1 0)
                (ip.1 = chart.panes.length - 1)))
          :: (ip.2.series.map fun s =>
                _render_series_js s ("chart_" ++ ip.2.id)).flatten).flatten).filter p
      = [] := by
  rw [List.filter_eq_nil_iff]
  intro st hst
  simp only [List.mem_flatten, List.mem_map] at hst
  obtain ⟨block, ⟨ip, _, rfl⟩, hmem⟩ := hst
  simp only [List.mem_cons] at hmem
  rcases hmem with rfl | hmem
  · simp [hcreate]
  · simp only [List.mem_flatten, List.mem_map] at hmem
    obtain ⟨blk, ⟨sp, _, rfl⟩, hs⟩ := hmem
    simp [hser sp _ st hs]

/-- Helper: the subscription statements of the whole script are exactly
`_render_time_sync_js` of the chart variables. -/
theorem render_filter_sync (chart : ChartPy) :
    (render_chart chart).stmts.filter isSubscribeSync
      = _render_time_sync_js (chartVars chart) := by
  by_cases hemp : chart.panes.isEmpty
  · rw [render_chart_stmts_empty chart hemp]
    have hv : chartVars chart = [] := by
      rw [chartVars, List.isEmpty_iff] at *
      simp [hemp]
    rw [hv, _render_time_sync_js]
    simp
  · rw [render_chart_stmts_eq chart (by simpa using hemp), List.filter_append,
      filter_pane_blocks_eq_nil chart isSubscribeSync (fun _ _ _ => rfl)
        (fun s v st h => (not_sync_of_mem_render_series s v st h).1),
      List.nil_append]
    apply List.filter_eq_self.mpr
    intro st hst
    rw [_render_time_sync_js] at hst
    by_cases hlen : (chartVars chart).length < 2
    · rw [if_pos hlen] at hst; cases hst
    · rw [if_neg hlen] at hst
      simp only [List.mem_map] at hst
      obtain ⟨iv, _, rfl⟩ := hst
      rfl

/-- Helper: counting on the second components of an enumerated list. -/
theorem countP_enumFrom_snd {α : Type} (p : α → Bool) :
    ∀ (n : ℕ) (l : List α),
      ((List.enumFrom n l).countP fun iv => p iv.2) = l.countP p := by
  intro n l
  induction l generalizing n with
  | nil => rfl
  | cons a l ih => simp [List.enumFrom, List.countP_cons, ih]

/-- Helper: in a duplicate-free list a present element is counted once. -/
theorem countP_eq_one_of_nodup {α : Type} [DecidableEq α] (v : α) :
    ∀ (l : List α), l.Nodup → v ∈ l →
      (l.countP fun x => decide (x = v)) = 1 := by
  intro l
  induction l with
  | nil => intro _ h; cases h
  | cons a l ih =>
      intro hnd hmem
      obtain ⟨hna, hnd'⟩ := List.nodup_cons.mp hnd
      rw [List.countP_cons]
      rcases List.mem_cons.mp hmem with rfl | hmem
      · have hz : (l.countP fun x => decide (x = v)) = 0 := by
          rw [List.countP_eq_zero]
          intro x hx
          simp only [decide_eq_true_eq]
          exact fun h => hna (h ▸ hx)
        simp [hz]
      · have hne : a ≠ v := fun h => hna (h ▸ hmem)
        rw [ih hnd' hmem]
        simp [hne]

/-- Helper: membership in `eraseIdx` of a duplicate-free list is
membership away from the erased element. -/
theorem mem_eraseIdx_iff_of_nodup {α : Type} :
    ∀ (l : List α), l.Nodup → ∀ (i : ℕ), i < l.length → ∀ (w : α),
      (w ∈ l.eraseIdx i ↔ (w ∈ l ∧ w ≠ l.getD i w)) := by
  intro l
  induction l with
  | nil =>
      intro _ i hi
      simp at hi
  | cons a l ih =>
      intro hl i hi w
      obtain ⟨hna, hnd⟩ := List.nodup_cons.mp hl
      cases i with
      | zero =>
          simp only [List.eraseIdx_cons_zero, List.getD_cons_zero, List.mem_cons]
          constructor
          · intro hw
            exact ⟨Or.inr hw, fun h => hna (h ▸ hw)⟩
          · rintro ⟨hw, hne⟩
            rcases hw with rfl | hw
            · exact absurd rfl hne
            · exact hw
      | succ i =>
          have hi' : i < l.length := by simpa using hi
          simp only [List.eraseIdx_cons_succ, List.mem_cons, List.getD_cons_succ]
          rw [ih hnd i hi' w]
          constructor
          · rintro (rfl | ⟨hw, hne⟩)
            · refine ⟨Or.inl rfl, fun h => hna ?_⟩
              rw [List.getD_eq_getElem _ _ hi'] at h
              rw [h]
              exact List.getElem_mem _
            · exact ⟨Or.inr hw, hne⟩
          · rintro ⟨rfl | hw, hne⟩
            · exact Or.inl rfl
            · exact Or.inr ⟨hw, hne⟩

/-- C4: the synchronization statements of the rendered script form a
fully-connected mesh.  The subscription statements are exactly
`_render_time_sync_js` of the per-pane chart variables; with fewer than
two panes no synchronization statement is emitted; with at least two
panes each pane's chart instance carries exactly one subscription, the
`i`-th subscription is registered on pane `i`'s instance, and its handler
(fired with a non-null range) targets exactly the other panes'
instances. -/
theorem C4_time_sync (chart : ChartPy) (hnd : (chartVars chart).Nodup) :
    ((render_chart chart).stmts.filter isSubscribeSync
        = _render_time_sync_js (chartVars chart)) ∧
    (chart.panes.length < 2 →
      (render_chart chart).stmts.filter isSubscribeSync = []) ∧
    (2 ≤ chart.panes.length →
      (∀ v ∈ chartVars chart,
        ((render_chart chart).stmts.filter (subscribesTo v)).length = 1) ∧
      (∀ i, i < chart.panes.length →
        (_render_time_sync_js (chartVars chart)).getD i (.setData "" [])
          = .subscribeSync ((chartVars chart).getD i "")
              ((chartVars chart).eraseIdx i)) ∧
      (∀ i, i < chart.panes.length → ∀ w,
        (w ∈ (chartVars chart).eraseIdx i ↔
          (w ∈ chartVars chart ∧ w ≠ (chartVars chart).getD i w)))) := by
  have hvlen : (chartVars chart).length = chart.panes.length := by
    simp [chartVars]
  refine ⟨render_filter_sync chart, ?_, ?_⟩
  · intro hlt
    rw [render_filter_sync chart, _render_time_sync_js, if_pos (by omega)]
  · intro hge
    refine ⟨?_, ?_, ?_⟩
    · intro v hv
      have hblocks :
        (render_chart chart).stmts.filter (subscribesTo v)
          = (_render_time_sync_js (chartVars chart)).filter (subscribesTo v) := by
        have hemp : chart.panes.isEmpty = false := by
          cases hpp : chart.panes.isEmpty with
          | false => rfl
          | true =>
              rw [List.isEmpty_iff] at hpp
              rw [hpp] at hge
              simp at hge
        rw [render_chart_stmts_eq chart hemp, List.filter_append,
          filter_pane_blocks_eq_nil chart (subscribesTo v) (fun _ _ _ => rfl)
            (fun s u st h => (not_sync_of_mem_render_series s u st h).2 v),
          List.nil_append]
      rw [hblocks, _render_time_sync_js, if_neg (by omega)]
      rw [List.filter_map, List.length_map, ← List.countP_eq_length_filter]
      have hfun : ((fun st => subscribesTo v st) ∘ fun iv =>
          Stmt.subscribeSync iv.2 ((chartVars chart).eraseIdx iv.1))
          = fun iv : ℕ × String => decide (iv.2 = v) := by
        funext iv
        rfl
      rw [hfun]
      have henum : (chartVars chart).enum.countP (fun iv => decide (iv.2 = v))
          = (chartVars chart).countP (fun x => decide (x = v)) := by
        rw [List.enum]
        exact countP_enumFrom_snd (fun x => decide (x = v)) 0 (chartVars chart)
      rw [henum]
      exact countP_eq_one_of_nodup v (chartVars chart) hnd hv
    · intro i hi
      rw [_render_time_sync_js, if_neg (by omega)]
      have hlt : i < ((chartVars chart).enum.map fun iv =>
          Stmt.subscribeSync iv.2 ((chartVars chart).eraseIdx iv.1)).length := by
        simp [hvlen, hi]
      rw [List.getD_eq_getElem _ _ hlt, List.getElem_map, List.getElem_enum,
        List.getD_eq_getElem _ _ (by omega)]
    · intro i hi w
      exact mem_eraseIdx_iff_of_nodup (chartVars chart) hnd i (by omega) w

/-- Witness for C4: a two-pane chart with distinct pane ids has
duplicate-free chart variables, and its script's subscription statements
are exactly the synchronization statements. -/
theorem C4_time_sync_witness :
    (chartVars ⟨"c", [], [⟨"a", [], []⟩, ⟨"b", [], []⟩], none⟩).Nodup ∧
    ((render_chart ⟨"c", [], [⟨"a", [], []⟩, ⟨"b", [], []⟩], none⟩).stmts.filter
        isSubscribeSync
      = _render_time_sync_js
          (chartVars ⟨"c", [], [⟨"a", [], []⟩, ⟨"b", [], []⟩], none⟩)) :=
  ⟨by decide, (C4_time_sync _ (by decide)).1⟩

/-! ### Time coercion (C5) -/

/-- C5: time coercion maps an integer to itself; a float to its truncation
toward zero (floor on nonnegatives, ceiling on negatives); the ISO-8601
string `"2021-01-01T00:00:00Z"` to `1609459200`; a zoneless datetime to
Unix seconds by UTC calendar arithmetic on its components (with the
concrete anchor 2021-01-01 00:00:00 ↦ 1609459200); a zoned datetime to UTC
Unix seconds (components minus offset); an object exposing a zero-argument
epoch-seconds capability to `int(...)` of that value; and everything else
to the unsupported-time-type error. -/
theorem C5_time_coercion :
    (∀ n : ℤ, to_unix_timestamp (.int n) = .ok n) ∧
    (∀ q : ℚ, to_unix_timestamp (.float q) = .ok (pyInt q)) ∧
    (∀ q : ℚ, 0 ≤ q → pyInt q = ⌊q⌋) ∧
    (∀ q : ℚ, q < 0 → pyInt q = ⌈q⌉) ∧
    to_unix_timestamp (.str "2021-01-01T00:00:00Z") = .ok 1609459200 ∧
    (∀ dt : PyDatetime, dt.tzOffset = none →
      to_unix_timestamp (.datetime dt) = .ok (timegm dt)) ∧
    timegm ⟨2021, 1, 1, 0, 0, 0, none⟩ = 1609459200 ∧
    (∀ dt : PyDatetime, ∀ off : ℤ, dt.tzOffset = some off →
      to_unix_timestamp (.datetime dt) = .ok (timegm dt - off)) ∧
    to_unix_timestamp (.datetime ⟨2021, 1, 1, 1, 0, 0, some 3600⟩)
      = .ok 1609459200 ∧
    (∀ q : ℚ, to_unix_timestamp (.epochObj q) = .ok (pyInt q)) ∧
    to_unix_timestamp .unsupported
      = .error "TypeError: Unsupported time type" := by
  refine ⟨fun n => rfl, fun q => rfl, ?_, ?_, rfl, ?_, rfl, ?_, rfl,
    fun q => rfl, rfl⟩
  · intro q h
    exact pyInt_of_nonneg h
  · intro q h
    rw [pyInt, if_neg (not_le.mpr h), ratCeil_eq_ceil]
  · intro dt h
    simp [to_unix_timestamp, timegmUtc, h]
  · intro dt off h
    simp [to_unix_timestamp, timegmUtc, h]

/-- Witness for C5: the truncation clause at `q = 5`, the zoneless clause
at UTC midnight 2021-01-01, and the zoned clause at 01:00:00+01:00. -/
theorem C5_time_coercion_witness :
    ((0 : ℚ) ≤ 5 ∧ pyInt 5 = ⌊(5 : ℚ)⌋) ∧
    ((⟨2021, 1, 1, 0, 0, 0, none⟩ : PyDatetime).tzOffset = none ∧
      to_unix_timestamp (.datetime ⟨2021, 1, 1, 0, 0, 0, none⟩)
        = .ok (timegm ⟨2021, 1, 1, 0, 0, 0, none⟩)) ∧
    ((⟨2021, 1, 1, 1, 0, 0, some 3600⟩ : PyDatetime).tzOffset = some 3600 ∧
      to_unix_timestamp (.datetime ⟨2021, 1, 1, 1, 0, 0, some 3600⟩)
        = .ok (timegm ⟨2021, 1, 1, 1, 0, 0, some 3600⟩ - 3600)) :=
  ⟨⟨by norm_num, C5_time_coercion.2.2.1 5 (by norm_num)⟩,
   ⟨rfl, C5_time_coercion.2.2.2.2.2.1 _ rfl⟩,
   ⟨rfl, C5_time_coercion.2.2.2.2.2.2.2.1 _ 3600 rfl⟩⟩

/-! ### Option translation (C6, C7) -/

/-- Helper: the key list of a translated mapping is the camel-cased key
list of the original. -/
theorem convert_keys (kvs : OptDict) :
    (convert_options_to_js kvs).map Prod.fst
      = kvs.map fun kv => to_camel_case kv.fst := by
  induction kvs with
  | nil => rfl
  | cons kv rest ih =>
      obtain ⟨k, v⟩ := kv
      simp [convert_options_to_js, ih]

mutual

/-- Helper: translating a value preserves its structural shape. -/
theorem sameShape_convertVal : ∀ v : OptVal, sameShape v (convertVal v) = true
  | .int _ => rfl
  | .float _ => rfl
  | .bool _ => rfl
  | .str _ => rfl
  | .list _ => rfl
  | .dict kvs => by
      rw [convertVal, sameShape]
      exact sameShapeDict_convert kvs

/-- Helper: translating a mapping preserves its structural shape. -/
theorem sameShapeDict_convert :
    ∀ kvs : OptDict, sameShapeDict kvs (convert_options_to_js kvs) = true
  | [] => rfl
  | (k, v) :: rest => by
      rw [convert_options_to_js, sameShapeDict,
        sameShape_convertVal v, sameShapeDict_convert rest]
      rfl

end

/-- Helper: looking up an absent key yields `none`. -/
theorem lookup_eq_none_of_not_mem {β : Type} (s : String)
    (l : List (String × β)) (h : s ∉ l.map Prod.fst) : l.lookup s = none := by
  induction l with
  | nil => rfl
  | cons kv rest ih =>
      obtain ⟨k, v⟩ := kv
      simp only [List.map_cons, List.mem_cons] at h
      push_neg at h
      have hb : (s == k) = false := beq_eq_false_iff_ne.mpr h.1
      simp [List.lookup, hb, ih h.2]

/-- C6: option translation sends the empty mapping to the empty mapping,
camel-cases every key (`line_width ↦ lineWidth`,
`price_line_color ↦ priceLineColor`), returns a structurally identical
mapping, recurses into nested mappings, rewrites exactly the five enum
strings, and passes every other value — unrecognized strings, ints,
floats, booleans and lists — through unchanged (it is total by
construction, so it never raises). -/
theorem C6_convert_options (kvs d : OptDict) (s : String) (n : ℤ) (q : ℚ)
    (b : Bool) (xs : List OptVal)
    (hs : s ∉ ENUM_VALUE_CONVERSIONS.map Prod.fst) :
    convert_options_to_js [] = [] ∧
    ((convert_options_to_js kvs).map Prod.fst
      = kvs.map fun kv => to_camel_case kv.fst) ∧
    to_camel_case "line_width" = "lineWidth" ∧
    to_camel_case "price_line_color" = "priceLineColor" ∧
    sameShapeDict kvs (convert_options_to_js kvs) = true ∧
    convertVal (.dict d) = .dict (convert_options_to_js d) ∧
    convertVal (.str "above_bar") = .str "aboveBar" ∧
    convertVal (.str "below_bar") = .str "belowBar" ∧
    convertVal (.str "in_bar") = .str "inBar" ∧
    convertVal (.str "arrow_up") = .str "arrowUp" ∧
    convertVal (.str "arrow_down") = .str "arrowDown" ∧
    convertVal (.str s) = .str s ∧
    convertVal (.int n) = .int n ∧
    convertVal (.float q) = .float q ∧
    convertVal (.bool b) = .bool b ∧
    convertVal (.list xs) = .list xs := by
  refine ⟨rfl, convert_keys kvs, rfl, rfl, sameShapeDict_convert kvs, rfl,
    rfl, rfl, rfl, rfl, rfl, ?_, rfl, rfl, rfl, rfl⟩
  rw [convertVal, enumConvert, lookup_eq_none_of_not_mem _ _ hs]

/-- Witness for C6: the key-translation and unrecognized-string clauses at
a concrete mapping and the string "hello". -/
theorem C6_convert_options_witness :
    ("hello" ∉ ENUM_VALUE_CONVERSIONS.map Prod.fst) ∧
    ((convert_options_to_js [("line_width", OptVal.int 2)]).map Prod.fst
      = [("line_width", OptVal.int 2)].map fun kv => to_camel_case kv.fst) ∧
    convertVal (.str "hello") = .str "hello" :=
  ⟨by decide,
   (C6_convert_options [("line_width", .int 2)] [] "hello" 0 0 false []
      (by decide)).2.1,
   (C6_convert_options [("line_width", .int 2)] [] "hello" 0 0 false []
      (by decide)).2.2.2.2.2.2.2.2.2.2.2.1⟩

/-- Helper: `String.mk` undoes the `data` projection. -/
theorem string_mk_data : ∀ s : String, String.mk s.data = s
  | ⟨_⟩ => rfl

/-- Helper: splitting an underscore-free character list is trivial. -/
theorem splitUnderscore_no_underscore :
    ∀ cs : List Char, '_' ∉ cs → splitUnderscore cs = [cs]
  | [], _ => rfl
  | c :: rest, h => by
      have hc : ¬(c = '_') := by
        intro hh
        exact h (hh ▸ List.mem_cons_self c rest)
      have hr : splitUnderscore rest = [rest] :=
        splitUnderscore_no_underscore rest fun hm => h (List.mem_cons_of_mem _ hm)
      simp [splitUnderscore, hr, hc]

/-- Helper: camel-casing is the identity on underscore-free keys. -/
theorem to_camel_case_no_underscore (k : String) (h : '_' ∉ k.data) :
    to_camel_case k = k := by
  rw [to_camel_case, splitUnderscore_no_underscore k.data h]
  simp [string_mk_data]

mutual

/-- Helper: translation is the identity on values with underscore-free
keys and non-enum string values at every depth. -/
theorem convertVal_id : ∀ v : OptVal, noUnderscoreKeysVal v = true →
    noEnumValuesVal v = true → convertVal v = v
  | .int _, _, _ => rfl
  | .float _, _, _ => rfl
  | .bool _, _, _ => rfl
  | .list _, _, _ => rfl
  | .str s, _, hv => by
      rw [noEnumValuesVal] at hv
      rw [convertVal, enumConvert,
        lookup_eq_none_of_not_mem _ _ (of_decide_eq_true hv)]
  | .dict kvs, hk, hv => by
      rw [noUnderscoreKeysVal] at hk
      rw [noEnumValuesVal] at hv
      rw [convertVal, convert_id kvs hk hv]

/-- Helper: translation is the identity on mappings with underscore-free
keys and non-enum string values at every depth. -/
theorem convert_id : ∀ kvs : OptDict, noUnderscoreKeys kvs = true →
    noEnumValues kvs = true → convert_options_to_js kvs = kvs
  | [], _, _ => rfl
  | (k, v) :: rest, hk, hv => by
      rw [noUnderscoreKeys] at hk
      rw [noEnumValues] at hv
      simp only [Bool.and_eq_true] at hk hv
      obtain ⟨⟨hk1, hk2⟩, hk3⟩ := hk
      obtain ⟨hv1, hv2⟩ := hv
      rw [convert_options_to_js,
        to_camel_case_no_underscore k (of_decide_eq_true hk1),
        convertVal_id v hk2 hv1, convert_id rest hk3 hv2]

end

/-- C7 counterexample: translating the mapping
`{"position": "above_bar"}` — whose keys are already camelCase with no
underscores — does not yield the same mapping, because the enum string
value is rewritten. -/
theorem C7_counterexample :
    noUnderscoreKeys [("position", OptVal.str "above_bar")] = true ∧
    convert_options_to_js [("position", OptVal.str "above_bar")]
      ≠ [("position", OptVal.str "above_bar")] := by
  refine ⟨by decide, ?_⟩
  have hEval : convert_options_to_js [("position", OptVal.str "above_bar")]
      = [("position", OptVal.str "aboveBar")] := rfl
  rw [hEval]
  intro h
  simp only [List.cons.injEq, Prod.mk.injEq, OptVal.str.injEq, and_true,
    true_and] at h
  exact absurd h (by decide)

/-- C7 (amended): option translation is the identity on mappings whose
keys (at every nesting depth) contain no underscore and whose string
values are not enum-table entries; and the concrete nested structure
`{"line_width": 2, "price_format": {"min_move": 0.01}}` translates to
`{"lineWidth": 2, "priceFormat": {"minMove": 0.01}}`. -/
theorem C7_amended (kvs : OptDict) (hk : noUnderscoreKeys kvs = true)
    (hv : noEnumValues kvs = true) :
    convert_options_to_js kvs = kvs ∧
    convert_options_to_js
        [("line_width", OptVal.int 2),
         ("price_format", OptVal.dict [("min_move", OptVal.float (1/100))])]
      = [("lineWidth", OptVal.int 2),
         ("priceFormat", OptVal.dict [("minMove", OptVal.float (1/100))])] :=
  ⟨convert_id kvs hk hv, rfl⟩

/-- Witness for C7 (amended): the identity clause at the camelCase mapping
`{"lineWidth": "red"}`. -/
theorem C7_amended_witness :
    noUnderscoreKeys [("lineWidth", OptVal.str "red")] = true ∧
    noEnumValues [("lineWidth", OptVal.str "red")] = true ∧
    convert_options_to_js [("lineWidth", OptVal.str "red")]
      = [("lineWidth", OptVal.str "red")] :=
  ⟨by decide, by decide, (C7_amended _ (by decide) (by decide)).1⟩

/-! ### add_series bounds checking (C8) -/

/-- C8: with an explicit pane index outside `[0, pane_count)`,
`Chart.add_series` raises the index error and returns the chart completely
unchanged (no pane gains a series, no pane is created); with an in-range
index it appends a freshly constructed series to exactly that pane and
returns the series. -/
theorem C8_add_series (c : ChartPy) (stype : String) (opts : Option OptDict)
    (i : ℤ) (sid pid : String) :
    ((i < 0 ∨ (c.panes.length : ℤ) ≤ i) →
      c.add_series stype opts (some i) sid pid
        = (.error "IndexError: Pane index out of range", c)) ∧
    (0 ≤ i → ∀ pane, c.panes.get? i.toNat = some pane →
      c.add_series stype opts (some i) sid pid
        = (.ok (mkSeries sid stype opts),
           { c with
              panes := c.panes.set i.toNat
                { pane with
                    series := pane.series ++ [mkSeries sid stype opts] } })) := by
  constructor
  · intro h
    rw [ChartPy.add_series, if_pos h]
  · intro hge pane hp
    have hlen : i.toNat < c.panes.length := by
      by_contra hh
      push_neg at hh
      rw [List.get?_eq_none.mpr hh] at hp
      cases hp
    have hneg : ¬(i < 0 ∨ (c.panes.length : ℤ) ≤ i) := by
      push_neg
      omega
    rw [ChartPy.add_series, if_neg hneg, hp]
    rfl

/-- Witness for C8: on a one-pane chart, index 5 raises and mutates
nothing, index 0 appends the new series to the only pane. -/
theorem C8_add_series_witness :
    ((5 : ℤ) < 0 ∨ (([(⟨"p", [], []⟩ : PanePy)] : List PanePy).length : ℤ) ≤ 5) ∧
    ChartPy.add_series ⟨"c", [], [⟨"p", [], []⟩], none⟩ "Line" none (some 5) "s" "q"
      = (.error "IndexError: Pane index out of range",
         ⟨"c", [], [⟨"p", [], []⟩], none⟩) ∧
    (0 : ℤ) ≤ 0 ∧
    ([(⟨"p", [], []⟩ : PanePy)] : List PanePy).get? (0 : ℤ).toNat
      = some ⟨"p", [], []⟩ ∧
    ChartPy.add_series ⟨"c", [], [⟨"p", [], []⟩], none⟩ "Line" none (some 0) "s" "q"
      = (.ok (mkSeries "s" "Line" none),
         ⟨"c", [], [⟨"p", [], [mkSeries "s" "Line" none]⟩], none⟩) :=
  ⟨Or.inr (by decide),
   (C8_add_series _ "Line" none 5 "s" "q").1 (Or.inr (by decide)),
   by decide,
   rfl,
   (C8_add_series ⟨"c", [], [⟨"p", [], []⟩], none⟩ "Line" none 0 "s" "q").2
     (by decide) ⟨"p", [], []⟩ rfl⟩

/-! ### Rendering mutates nothing (C9) -/

/-- Helper: allocation leaves existing cells readable unchanged. -/
theorem heap_getD_append (h : Heap) (d : HDict) (a : ℕ) (ha : a < h.length) :
    Heap.getD (h ++ [d]) a = h.getD a := by
  rw [Heap.getD, Heap.getD, List.getD_append _ _ _ _ ha]

/-- Helper: a key assignment on one cell leaves every other cell
unchanged. -/
theorem heap_getD_setKey_ne (h : Heap) (p : ℕ) (k : String) (v : HVal)
    (a : ℕ) (hne : a ≠ p) : (h.setKey p k v).getD a = h.getD a := by
  have hs : (List.set h p (pyDictSet (Heap.getD h p) k v))[a]? = h[a]? :=
    List.getElem?_set_ne (Ne.symm hne)
  show List.getD (List.set h p (pyDictSet (Heap.getD h p) k v)) a []
      = List.getD h a []
  rw [List.getD_eq_getElem?_getD, List.getD_eq_getElem?_getD, hs]

/-- Helper: a key assignment preserves the heap size. -/
theorem heap_length_setKey (h : Heap) (p : ℕ) (k : String) (v : HVal) :
    (h.setKey p k v).length = h.length := by
  rw [Heap.setKey, List.length_set]

/-- Helper: building one pane's options dict touches no pre-existing cell
and only grows the heap. -/
theorem buildPaneOptionsH_frame (h : Heap) (optsRef : ℕ) (w ht : ℤ)
    (last : Bool) (a : ℕ) (ha : a < h.length) :
    (buildPaneOptionsH h optsRef w ht last).1.getD a = h.getD a ∧
    h.length ≤ (buildPaneOptionsH h optsRef w ht last).1.length := by
  rw [buildPaneOptionsH]
  simp only [Heap.alloc]
  have hane : a ≠ h.length := by omega
  have hlen2 : (((h ++ [h.getD optsRef]).setKey h.length "width"
      (.int w)).setKey h.length "height" (.int ht)).length = h.length + 1 := by
    rw [heap_length_setKey, heap_length_setKey, List.length_append,
      List.length_singleton]
  have hane2 : a ≠ (((h ++ [h.getD optsRef]).setKey h.length "width"
      (.int w)).setKey h.length "height" (.int ht)).length := by
    rw [hlen2]
    omega
  have ha2 : a < (((h ++ [h.getD optsRef]).setKey h.length "width"
      (.int w)).setKey h.length "height" (.int ht)).length + 1 := by
    rw [hlen2]
    omega
  cases last with
  | true =>
      simp only [if_pos]
      constructor
      · rw [heap_getD_setKey_ne _ _ _ _ _ hane,
          heap_getD_setKey_ne _ _ _ _ _ hane,
          heap_getD_append _ _ _ ha]
      · rw [hlen2]
        omega
  | false =>
      simp only [Bool.false_eq_true, if_false]
      constructor
      · rw [heap_getD_setKey_ne _ _ _ _ _ hane,
          heap_getD_setKey_ne _ _ _ _ _ hane2,
          heap_getD_append _ _ _ (by rw [hlen2]; omega),
          heap_getD_setKey_ne _ _ _ _ _ hane,
          heap_getD_setKey_ne _ _ _ _ _ hane,
          heap_getD_append _ _ _ ha]
      · rw [heap_length_setKey, heap_length_setKey, List.length_append,
          List.length_singleton, hlen2]
        omega

/-- Helper: the whole per-pane options loop touches no pre-existing cell
and only grows the heap. -/
theorem renderOptionsLoopH_frame (optsRef : ℕ) (w : ℤ) :
    ∀ (hps : List (ℤ × Bool)) (h : Heap) (a : ℕ), a < h.length →
      (renderOptionsLoopH optsRef w h hps).1.getD a = h.getD a ∧
      h.length ≤ (renderOptionsLoopH optsRef w h hps).1.length := by
  intro hps
  induction hps with
  | nil =>
      intro h a ha
      exact ⟨rfl, le_refl _⟩
  | cons hd tl ih =>
      intro h a ha
      obtain ⟨hd1, hd2⟩ := hd
      rw [renderOptionsLoopH]
      have hb := buildPaneOptionsH_frame h optsRef w hd1 hd2 a ha
      have hrest := ih (buildPaneOptionsH h optsRef w hd1 hd2).1 a
        (lt_of_lt_of_le ha hb.2)
      exact ⟨hrest.1.trans hb.1, le_trans hb.2 hrest.2⟩

/-- C9: rendering does not mutate the chart.  Running the complete heap
effects of `render_chart` (the per-pane options construction over the
computed heights) leaves every pre-existing heap cell — the chart's
options dict, its nested `time_scale` sub-dict, and any pane/series-held
dict (options, data points, markers, price lines) living in the initial
heap — exactly as it was. -/
theorem C9_render_no_mutation (h : Heap) (optsRef : ℕ) (width : ℤ)
    (heights : List ℤ) (hopts : optsRef < h.length) :
    (∀ a, a < h.length →
      (render_chart_heap h optsRef width heights).1.getD a = h.getD a) ∧
    (render_chart_heap h optsRef width heights).1.getD optsRef
      = h.getD optsRef ∧
    (∀ ts, dictGet (h.getD optsRef) "time_scale" = some (.ref ts) →
      ts < h.length →
      (render_chart_heap h optsRef width heights).1.getD ts = h.getD ts) := by
  have hframe : ∀ a, a < h.length →
      (render_chart_heap h optsRef width heights).1.getD a = h.getD a := by
    intro a ha
    rw [render_chart_heap]
    exact (renderOptionsLoopH_frame optsRef width _ h a ha).1
  exact ⟨hframe, hframe optsRef hopts, fun ts _ hts => hframe ts hts⟩

/-- Witness for C9: a two-cell heap holding an options dict that
references a `time_scale` sub-dict; after rendering two panes both cells
read back unchanged. -/
theorem C9_render_no_mutation_witness :
    (0 : ℕ) < ([[("height", HVal.int 600), ("time_scale", HVal.ref 1)],
                   [("visible", HVal.bool true)]] : Heap).length ∧
    (render_chart_heap
        [[("height", HVal.int 600), ("time_scale", HVal.ref 1)],
         [("visible", HVal.bool true)]] 0 800 [300, 300]).1.getD 0
      = Heap.getD [[("height", HVal.int 600), ("time_scale", HVal.ref 1)],
                   [("visible", HVal.bool true)]] 0 ∧
    (render_chart_heap
        [[("height", HVal.int 600), ("time_scale", HVal.ref 1)],
         [("visible", HVal.bool true)]] 0 800 [300, 300]).1.getD 1
      = Heap.getD [[("height", HVal.int 600), ("time_scale", HVal.ref 1)],
                   [("visible", HVal.bool true)]] 1 :=
  ⟨by decide,
   (C9_render_no_mutation _ 0 800 [300, 300] (by decide)).2.1,
   (C9_render_no_mutation _ 0 800 [300, 300] (by decide)).2.2 1 rfl
     (by decide)⟩

/-! ### Copy-on-store semantics (C10) -/

/-- Helper: the freshly allocated cell holds the given dict. -/
theorem heap_getD_alloc_self (h : Heap) (d : HDict) :
    Heap.getD (h ++ [d]) h.length = d := by
  rw [Heap.getD, List.getD_append_right _ _ _ _ (le_refl _)]
  simp [List.getD]

/-- Helper: the marker-copy loop reads the old heap, allocates only fresh
cells (all at addresses at or above the old heap size), and returns one
stored address per processed marker. -/
theorem createMarkersGo_spec :
    ∀ (pending acc : List ℕ) (h h' : Heap) (out : List ℕ),
      createMarkersGo h pending acc = .ok (h', out) →
      (∀ a, a < h.length → h'.getD a = h.getD a) ∧
      h.length ≤ h'.length ∧
      out.length = acc.length + pending.length ∧
      (∀ a ∈ out, a ∈ acc ∨ (h.length ≤ a ∧ a < h'.length)) := by
  intro pending
  induction pending with
  | nil =>
      intro acc h h' out he
      rw [createMarkersGo] at he
      cases he
      exact ⟨fun a _ => rfl, le_refl _, by simp, fun a ha => Or.inl ha⟩
  | cons r rest ih =>
      intro acc h h' out he
      rw [createMarkersGo] at he
      cases hc : copyWithTime (h.getD r) with
      | error e =>
          rw [hc] at he
          simp [Except.bind] at he
      | ok nd =>
          rw [hc] at he
          simp only [Except.bind, Heap.alloc] at he
          obtain ⟨hf, hl, hlen, hmem⟩ := ih (acc ++ [h.length]) (h ++ [nd]) h' out he
          have hlen1 : (h ++ [nd]).length = h.length + 1 := by simp
          rw [hlen1] at hl
          refine ⟨?_, by omega, ?_, ?_⟩
          · intro a ha
            rw [hf a (by simp; omega), heap_getD_append _ _ _ ha]
          · have hacc : (acc ++ [h.length]).length = acc.length + 1 := by
              simp
            rw [hacc] at hlen
            rw [hlen, List.length_cons]
            omega
          · intro a hm
            rcases hmem a hm with hin | ⟨h1, h2⟩
            · rcases List.mem_append.mp hin with hin | hin
              · exact Or.inl hin
              · rcases List.mem_singleton.mp hin with rfl
                exact Or.inr ⟨le_refl _, by omega⟩
            · rw [hlen1] at h1
              exact Or.inr ⟨by omega, h2⟩

/-- C10: the mutating operations copy their inputs rather than aliasing
them.  `Chart.__init__` stores a fresh copy of the caller's options dict
(at a fresh address, holding the same entries) and later writes to the
caller's dict do not reach it; `BaseSeries.update` appends a fresh copy of
the data point with only its time normalized, leaving the caller's cell
untouched and immune to later caller writes; and `create_series_markers`
stores one fresh copy per given marker, all at fresh addresses, leaving
every pre-existing cell unchanged and the stored cells unaffected by later
writes to any pre-existing dict. -/
theorem C10_copy_semantics (h : Heap) (r barRef : ℕ)
    (dataRefs markerRefs : List ℕ) (k : String) (v : HVal)
    (hr : r < h.length) (hbar : barRef < h.length) :
    ((chartInitOptions h (some r)).1.getD r = h.getD r ∧
     (chartInitOptions h (some r)).2 = h.length ∧
     (chartInitOptions h (some r)).1.getD (chartInitOptions h (some r)).2
       = h.getD r ∧
     ((chartInitOptions h (some r)).1.setKey r k v).getD
         (chartInitOptions h (some r)).2
       = (chartInitOptions h (some r)).1.getD
           (chartInitOptions h (some r)).2) ∧
    (∀ h' dataRefs', seriesUpdate h dataRefs barRef = .ok (h', dataRefs') →
      (∀ a, a < h.length → h'.getD a = h.getD a) ∧
      dataRefs' = dataRefs ++ [h.length] ∧
      (∃ nd, copyWithTime (h.getD barRef) = .ok nd ∧
        h'.getD h.length = nd) ∧
      (h'.setKey barRef k v).getD h.length = h'.getD h.length) ∧
    (∀ h' stored, create_series_markers h markerRefs = .ok (h', stored) →
      (∀ a, a < h.length → h'.getD a = h.getD a) ∧
      stored.length = markerRefs.length ∧
      (∀ a ∈ stored, h.length ≤ a ∧ a < h'.length) ∧
      (∀ rr, rr < h.length → ∀ a ∈ stored,
        (h'.setKey rr k v).getD a = h'.getD a)) := by
  refine ⟨⟨?_, rfl, ?_, ?_⟩, ?_, ?_⟩
  · exact heap_getD_append h _ r hr
  · exact heap_getD_alloc_self h _
  · exact heap_getD_setKey_ne _ r k v h.length (by omega)
  · intro h' dataRefs' he
    rw [seriesUpdate] at he
    cases hc : copyWithTime (h.getD barRef) with
    | error e =>
        rw [hc] at he
        simp [Except.map] at he
    | ok nd =>
        rw [hc] at he
        simp only [Except.map, Heap.alloc, Except.ok.injEq, Prod.mk.injEq] at he
        obtain ⟨hh, hd⟩ := he
        subst hh
        subst hd
        refine ⟨?_, rfl, ⟨nd, rfl, heap_getD_alloc_self h nd⟩, ?_⟩
        · intro a ha
          exact heap_getD_append h nd a ha
        · exact heap_getD_setKey_ne _ barRef k v h.length (by omega)
  · intro h' stored he
    rw [create_series_markers] at he
    obtain ⟨hf, hl, hlen, hmem⟩ :=
      createMarkersGo_spec markerRefs [] h h' stored he
    refine ⟨hf, by simpa using hlen, ?_, ?_⟩
    · intro a ha
      rcases hmem a ha with hin | hb
      · cases hin
      · exact hb
    · intro rr hrr a ha
      rcases hmem a ha with hin | ⟨h1, _⟩
      · cases hin
      · exact heap_getD_setKey_ne h' rr k v a (by omega)

/-- Witness for C10: a one-cell heap holding a data-point dict; the chart
options copy reads back equal, `update` appends a fresh normalized copy,
and a later write to the caller's dict leaves the stored copy
unchanged. -/
theorem C10_copy_semantics_witness :
    (0 : ℕ) < ([[("time", HVal.int 5)]] : Heap).length ∧
    (chartInitOptions [[("time", HVal.int 5)]] (some 0)).1.getD 0
      = Heap.getD [[("time", HVal.int 5)]] 0 ∧
    seriesUpdate [[("time", HVal.int 5)]] [] 0
      = .ok ([[("time", HVal.int 5)], [("time", HVal.int 5)]], [1]) ∧
    (Heap.setKey [[("time", HVal.int 5)], [("time", HVal.int 5)]] 0 "x"
        (HVal.int 7)).getD 1
      = Heap.getD [[("time", HVal.int 5)], [("time", HVal.int 5)]] 1 :=
  ⟨by decide,
   (C10_copy_semantics [[("time", HVal.int 5)]] 0 0 [] [0] "x" (HVal.int 7)
      (by decide) (by decide)).1.1,
   rfl,
   ((C10_copy_semantics [[("time", HVal.int 5)]] 0 0 [] [0] "x" (HVal.int 7)
      (by decide) (by decide)).2.1
      [[("time", HVal.int 5)], [("time", HVal.int 5)]] [1] rfl).2.2.2⟩

end Litecharts
